import Mathlib

/-!
Shallow embedding of the chess backend (board_setup.py, utils.py).

Coordinates are pairs of integers (row, col); the Python code indexes the
board with plain ints after an explicit bounds check, so positions here are
`Int × Int` and `is_valid_position` mirrors `0 <= row < 8 and 0 <= col < 8`.
The board is a list of 8 rows of 8 optional pieces, mirroring the Python
list-of-lists representation.
-/

inductive Color where
  | white
  | black
deriving DecidableEq

inductive PieceType where
  | pawn
  | knight
  | bishop
  | rook
  | queen
  | king
deriving DecidableEq

/-- Embeds `ChessPiece` (board_setup.py lines 4-13): color, piece type and
the has_moved flag, which starts out false. -/
structure ChessPiece where
  color : Color
  piece_type : PieceType
  has_moved : Bool
deriving DecidableEq

abbrev Board : Type := List (List (Option ChessPiece))

deriving instance DecidableEq for Except

/-- The back-rank piece order of `setup_board` (board_setup.py lines 86-95). -/
def piece_order : List PieceType :=
  [.rook, .knight, .bishop, .queen, .king, .bishop, .knight, .rook]

/-- Embeds `setup_board` (board_setup.py lines 84-100): black pieces on row 0,
black pawns on row 1, white pawns on row 6, white pieces on row 7, all other
squares empty. -/
def setup_board : Board :=
  [piece_order.map (fun t => some ⟨Color.black, t, false⟩),
   List.replicate 8 (some ⟨Color.black, PieceType.pawn, false⟩),
   List.replicate 8 none,
   List.replicate 8 none,
   List.replicate 8 none,
   List.replicate 8 none,
   List.replicate 8 (some ⟨Color.white, PieceType.pawn, false⟩),
   piece_order.map (fun t => some ⟨Color.white, t, false⟩)]

/-- Embeds `is_valid_position` (board_setup.py lines 227-229). -/
def is_valid_position (row col : Int) : Bool :=
  decide (0 ≤ row ∧ row < 8 ∧ 0 ≤ col ∧ col < 8)

/-- Embeds `get_piece` (board_setup.py lines 231-233): bounds-checked lookup,
returning nothing out of bounds. -/
def get_piece (b : Board) (row col : Int) : Option ChessPiece :=
  if is_valid_position row col then (b.getD row.toNat []).getD col.toNat none
  else none

/-- Embeds the shared guard `target_piece and target_piece.color == piece.color`
(board_setup.py line 111). -/
def same_color_target (target : Option ChessPiece) (piece : ChessPiece) : Bool :=
  match target with
  | some t => decide (t.color = piece.color)
  | none => false

/-- Embeds the pawn `direction` local (board_setup.py line 115):
1 for black, -1 for white. -/
def pawn_direction (c : Color) : Int :=
  if c = Color.black then 1 else -1

/-- Embeds `is_valid_move` (board_setup.py lines 102-137). -/
def is_valid_move (b : Board) (from_pos to_pos : Int × Int) (piece : ChessPiece) : Bool :=
  let from_row := from_pos.1
  let from_col := from_pos.2
  let to_row := to_pos.1
  let to_col := to_pos.2
  if ¬ is_valid_position to_row to_col then false
  else
    let target_piece := get_piece b to_row to_col
    if same_color_target target_piece piece then false
    else
      match piece.piece_type with
      | PieceType.pawn =>
          let direction := pawn_direction piece.color
          if to_col = from_col then
            if to_row = from_row + direction then !target_piece.isSome
            else if piece.has_moved = false ∧ to_row = from_row + 2 * direction then
              !target_piece.isSome
            else false
          else if (to_col - from_col).natAbs = 1 ∧ to_row = from_row + direction then
            target_piece.isSome
          else false
      | PieceType.rook => decide (from_row = to_row ∨ from_col = to_col)
      | PieceType.knight =>
          decide ((from_row - to_row).natAbs * (from_col - to_col).natAbs = 2)
      | PieceType.bishop =>
          decide ((from_row - to_row).natAbs = (from_col - to_col).natAbs)
      | PieceType.queen =>
          decide ((from_row = to_row ∨ from_col = to_col) ∨
            (from_row - to_row).natAbs = (from_col - to_col).natAbs)
      | PieceType.king =>
          decide (max (from_row - to_row).natAbs (from_col - to_col).natAbs = 1)

/-- The turn flip `"black" if self.current_turn == "white" else "white"`
(board_setup.py line 223). -/
def Color.opposite (c : Color) : Color :=
  if c = Color.white then Color.black else Color.white

/-- The four rejection reasons of `make_move` (board_setup.py lines 210, 214,
216, 225), one constructor per distinct failure message. -/
inductive MoveError where
  | invalidPosition
  | noPieceAtSource
  | wrongTurn
  | illegalMove
deriving DecidableEq

/-- The mutable state of `ChessBoard` that `make_move` touches: the grid and
the side to move. -/
structure GameState where
  board : Board
  current_turn : Color
deriving DecidableEq

/-- Embeds the in-place assignment `self.board[row][col] = v`. -/
def set_square (b : Board) (row col : Int) (v : Option ChessPiece) : Board :=
  b.set row.toNat ((b.getD row.toNat []).set col.toNat v)

/-- Embeds `make_move` (board_setup.py lines 201-225). On success the piece is
placed on the destination with its has_moved flag set, the source is cleared
and the turn flips; every failure path returns the state unchanged. -/
def make_move (s : GameState) (from_pos to_pos : Int × Int) :
    GameState × Except MoveError Unit :=
  let from_row := from_pos.1
  let from_col := from_pos.2
  let to_row := to_pos.1
  let to_col := to_pos.2
  if ¬ (is_valid_position from_row from_col ∧ is_valid_position to_row to_col) then
    (s, Except.error MoveError.invalidPosition)
  else
    match get_piece s.board from_row from_col with
    | none => (s, Except.error MoveError.noPieceAtSource)
    | some piece =>
        if piece.color ≠ s.current_turn then (s, Except.error MoveError.wrongTurn)
        else if is_valid_move s.board from_pos to_pos piece then
          let b1 := set_square s.board to_row to_col (some { piece with has_moved := true })
          let b2 := set_square b1 from_row from_col none
          (⟨b2, s.current_turn.opposite⟩, Except.ok ())
        else (s, Except.error MoveError.illegalMove)

/-- Number of occupied squares of a board. -/
def piece_count (b : Board) : Nat :=
  (b.map (fun row => row.countP Option.isSome)).sum

/-- The representation invariant the Python constructor establishes:
an 8 by 8 grid. -/
def board_wf (b : Board) : Prop :=
  b.length = 8 ∧ ∀ r ∈ b, r.length = 8

instance (b : Board) : Decidable (board_wf b) := by
  unfold board_wf
  infer_instance

/-- ASCII lower-casing of a character, as `str.lower` behaves on the ASCII
letters the program feeds it. -/
def char_lower (c : Char) : Char :=
  if 65 ≤ c.toNat ∧ c.toNat ≤ 90 then Char.ofNat (c.toNat + 32) else c

/-- Embeds `convert_position` (utils.py lines 1-5):
`col = ord(position[0].lower()) - ord("a")`, `row = 8 - int(position[1])`.
A string shorter than two characters raises IndexError and a non-digit second
character raises ValueError in Python; both become `none` here. -/
def convert_position (position : String) : Option (Int × Int) :=
  match position.data with
  | c0 :: c1 :: _ =>
      if 48 ≤ c1.toNat ∧ c1.toNat ≤ 57 then
        some ((8 : Int) - ((c1.toNat : Int) - 48), ((char_lower c0).toNat : Int) - 97)
      else none
  | _ => none

/-- Embeds `convert_position_to_uci` (utils.py lines 8-10):
`chr(col + ord("a")) + str(8 - row)`. -/
def convert_position_to_uci (row col : Int) : String :=
  String.mk [Char.ofNat (col + 97).toNat] ++ toString (8 - row)

/-- Embeds `ChessBoard.DIFFICULTY_SETTINGS` (board_setup.py lines 19-24) as an
association list tier name to (skill level, depth). -/
def DIFFICULTY_SETTINGS : List (String × Nat × Nat) :=
  [("beginner", 3, 5),
   ("intermediate", 10, 10),
   ("professional", 15, 15),
   ("top_star", 20, 20)]

/-- The `ValueError` raised by `configure_difficulty` on an unknown tier
(board_setup.py lines 63-66). -/
inductive ConfigError where
  | invalidDifficulty
deriving DecidableEq

/-- Embeds `configure_difficulty` (board_setup.py lines 61-82): the result is
the list of option commands sent to the engine process, paired with either the
configuration error (raised before anything is sent, so the sent list is
empty) or the search depth stored on success. -/
def configure_difficulty (difficulty : String) :
    List String × Except ConfigError Nat :=
  match DIFFICULTY_SETTINGS.lookup difficulty with
  | none => ([], Except.error ConfigError.invalidDifficulty)
  | some (skill, depth) =>
      (["setoption name Skill Level value " ++ toString skill,
        "setoption name UCI_LimitStrength value true"], Except.ok depth)

/-- A board holding only a black pawn on (1,0) and a white pawn on (2,0);
every other square is empty. (2,0) is one step forward of (1,0) for black,
i.e. the intermediate square of the double step (1,0) to (3,0). -/
def two_pawn_board : Board :=
  [List.replicate 8 none,
   some ⟨Color.black, PieceType.pawn, false⟩ :: List.replicate 7 none,
   some ⟨Color.white, PieceType.pawn, false⟩ :: List.replicate 7 none,
   List.replicate 8 none,
   List.replicate 8 none,
   List.replicate 8 none,
   List.replicate 8 none,
   List.replicate 8 none]

/-- Rejection shape of `make_move` when a coordinate is out of bounds
(board_setup.py lines 206-210). -/
theorem make_move_invalid (s : GameState) (fp tp : Int × Int)
    (h : ¬ (is_valid_position fp.1 fp.2 ∧ is_valid_position tp.1 tp.2)) :
    make_move s fp tp = (s, Except.error MoveError.invalidPosition) := by
  simp only [make_move, if_pos h]

/-- Rejection shape of `make_move` when the source square is empty
(board_setup.py lines 212-214). -/
theorem make_move_no_piece (s : GameState) (fp tp : Int × Int)
    (hv : is_valid_position fp.1 fp.2 ∧ is_valid_position tp.1 tp.2)
    (h : get_piece s.board fp.1 fp.2 = none) :
    make_move s fp tp = (s, Except.error MoveError.noPieceAtSource) := by
  simp only [make_move, if_neg (not_not_intro hv), h]

/-- Rejection shape of `make_move` when the source piece belongs to the side
not on turn (board_setup.py lines 215-216). -/
theorem make_move_wrong_turn (s : GameState) (fp tp : Int × Int) (piece : ChessPiece)
    (hv : is_valid_position fp.1 fp.2 ∧ is_valid_position tp.1 tp.2)
    (hp : get_piece s.board fp.1 fp.2 = some piece)
    (hc : piece.color ≠ s.current_turn) :
    make_move s fp tp = (s, Except.error MoveError.wrongTurn) := by
  simp only [make_move, if_neg (not_not_intro hv), hp, if_pos hc]

/-- Rejection shape of `make_move` when the per-piece rule fails
(board_setup.py line 225). -/
theorem make_move_illegal (s : GameState) (fp tp : Int × Int) (piece : ChessPiece)
    (hv : is_valid_position fp.1 fp.2 ∧ is_valid_position tp.1 tp.2)
    (hp : get_piece s.board fp.1 fp.2 = some piece)
    (hc : piece.color = s.current_turn)
    (hiv : is_valid_move s.board fp tp piece = false) :
    make_move s fp tp = (s, Except.error MoveError.illegalMove) := by
  simp only [make_move, if_neg (not_not_intro hv), hp, if_neg (not_not_intro hc), hiv]
  simp

/-- Success shape of `make_move` (board_setup.py lines 218-224). -/
theorem make_move_ok (s : GameState) (fp tp : Int × Int) (piece : ChessPiece)
    (hv : is_valid_position fp.1 fp.2 ∧ is_valid_position tp.1 tp.2)
    (hp : get_piece s.board fp.1 fp.2 = some piece)
    (hc : piece.color = s.current_turn)
    (hiv : is_valid_move s.board fp tp piece = true) :
    make_move s fp tp =
      (⟨set_square (set_square s.board tp.1 tp.2 (some { piece with has_moved := true }))
          fp.1 fp.2 none, s.current_turn.opposite⟩, Except.ok ()) := by
  simp only [make_move, if_neg (not_not_intro hv), hp, if_neg (not_not_intro hc), hiv]
  simp

/-- Moving a piece onto its own square is never legal: the destination occupant
is the piece itself, so the shared same-color guard fires
(board_setup.py lines 110-112). -/
theorem is_valid_move_self (b : Board) (p : Int × Int) (piece : ChessPiece)
    (h : get_piece b p.1 p.2 = some piece) :
    is_valid_move b p p piece = false := by
  simp [is_valid_move, h, same_color_target]

/-- C3: make_move evaluates its rejection conditions in this fixed order,
returning the first failure: (1) out-of-bounds from or to position is rejected
as an invalid position; (2) an empty source square is rejected as
no-piece-at-source; (3) a source piece whose color differs from the side to
move is rejected as wrong turn; (4) a move failing the per-piece legality rule
is rejected as an illegal move; only if all four pass is the move accepted. -/
theorem C3_make_move_rejection_order :
    (∀ (s : GameState) (fp tp : Int × Int),
        ¬ (is_valid_position fp.1 fp.2 ∧ is_valid_position tp.1 tp.2) →
        make_move s fp tp = (s, Except.error MoveError.invalidPosition)) ∧
    (∀ (s : GameState) (fp tp : Int × Int),
        (is_valid_position fp.1 fp.2 ∧ is_valid_position tp.1 tp.2) →
        get_piece s.board fp.1 fp.2 = none →
        make_move s fp tp = (s, Except.error MoveError.noPieceAtSource)) ∧
    (∀ (s : GameState) (fp tp : Int × Int) (piece : ChessPiece),
        (is_valid_position fp.1 fp.2 ∧ is_valid_position tp.1 tp.2) →
        get_piece s.board fp.1 fp.2 = some piece →
        piece.color ≠ s.current_turn →
        make_move s fp tp = (s, Except.error MoveError.wrongTurn)) ∧
    (∀ (s : GameState) (fp tp : Int × Int) (piece : ChessPiece),
        (is_valid_position fp.1 fp.2 ∧ is_valid_position tp.1 tp.2) →
        get_piece s.board fp.1 fp.2 = some piece →
        piece.color = s.current_turn →
        is_valid_move s.board fp tp piece = false →
        make_move s fp tp = (s, Except.error MoveError.illegalMove)) ∧
    (∀ (s : GameState) (fp tp : Int × Int) (piece : ChessPiece),
        (is_valid_position fp.1 fp.2 ∧ is_valid_position tp.1 tp.2) →
        get_piece s.board fp.1 fp.2 = some piece →
        piece.color = s.current_turn →
        is_valid_move s.board fp tp piece = true →
        (make_move s fp tp).2 = Except.ok ()) :=
  ⟨make_move_invalid, make_move_no_piece, make_move_wrong_turn, make_move_illegal,
   fun s fp tp piece hv hp hc hiv => by rw [make_move_ok s fp tp piece hv hp hc hiv]⟩

/-- Witness for C3 at a concrete input: an out-of-bounds source is rejected as
an invalid position and leaves the state unchanged. -/
theorem C3_witness :
    make_move ⟨setup_board, Color.white⟩ (9, 0) (0, 0) =
      (⟨setup_board, Color.white⟩, Except.error MoveError.invalidPosition) :=
  C3_make_move_rejection_order.1 ⟨setup_board, Color.white⟩ (9, 0) (0, 0) (by decide)

/-- C4: Whenever make_move returns a failure result (any of the four rejection
reasons), the board grid, every piece's has_moved flag, and the side-to-move
are exactly as they were before the call — rejected moves never mutate any
state. -/
theorem C4_rejected_moves_mutate_nothing (s : GameState) (fp tp : Int × Int)
    (e : MoveError) (h : (make_move s fp tp).2 = Except.error e) :
    (make_move s fp tp).1 = s := by
  by_cases hv : is_valid_position fp.1 fp.2 ∧ is_valid_position tp.1 tp.2
  · cases hgp : get_piece s.board fp.1 fp.2 with
    | none => rw [make_move_no_piece s fp tp hv hgp]
    | some piece =>
      by_cases hc : piece.color = s.current_turn
      · cases hiv : is_valid_move s.board fp tp piece with
        | false => rw [make_move_illegal s fp tp piece hv hgp hc hiv]
        | true =>
          rw [make_move_ok s fp tp piece hv hgp hc hiv] at h
          exact absurd h (by simp)
      · rw [make_move_wrong_turn s fp tp piece hv hgp hc]
  · rw [make_move_invalid s fp tp hv]

/-- Witness for C4 at a concrete input: the rejected out-of-bounds move leaves
the initial state untouched. -/
theorem C4_witness :
    (make_move ⟨setup_board, Color.white⟩ (9, 0) (0, 0)).1 = ⟨setup_board, Color.white⟩ :=
  C4_rejected_moves_mutate_nothing ⟨setup_board, Color.white⟩ (9, 0) (0, 0)
    MoveError.invalidPosition (by decide)

/-- C10: For every game state and every position p, make_move(p, p) (source
equal to destination) always returns a failure and leaves the board and
side-to-move unchanged: when p is in bounds and holds a piece of the side to
move, the destination occupant is that same piece, so the shared
same-color-destination precondition rejects the move; the other cases fail the
bounds, empty-source, or wrong-turn checks. -/
theorem C10_move_to_self_always_fails :
    ∀ (s : GameState) (p : Int × Int),
      (make_move s p p).1 = s ∧ (make_move s p p).2 ≠ Except.ok () := by
  intro s p
  by_cases hv : is_valid_position p.1 p.2 ∧ is_valid_position p.1 p.2
  · cases hgp : get_piece s.board p.1 p.2 with
    | none => rw [make_move_no_piece s p p hv hgp]; exact ⟨rfl, by simp⟩
    | some piece =>
      by_cases hc : piece.color = s.current_turn
      · rw [make_move_illegal s p p piece hv hgp hc (is_valid_move_self s.board p piece hgp)]
        exact ⟨rfl, by simp⟩
      · rw [make_move_wrong_turn s p p piece hv hgp hc]; exact ⟨rfl, by simp⟩
  · rw [make_move_invalid s p p hv]; exact ⟨rfl, by simp⟩

/-- C1 counterexample: on the initial board the white rook on (7,0) may move
to (4,0) even though the pawn on (6,0) stands strictly between them on the
shared file (4 < 6 < 7, same column 0): the legality check returns true and
make_move accepts the move, so the claimed path-obstruction rejection does not
exist in the code. -/
theorem C1_counterexample :
    (4 : Int) < 6 ∧ (6 : Int) < 7 ∧
    (get_piece setup_board 6 0).isSome = true ∧
    is_valid_move setup_board (7, 0) (4, 0) ⟨Color.white, PieceType.rook, false⟩ = true ∧
    (make_move ⟨setup_board, Color.white⟩ (7, 0) (4, 0)).2 = Except.ok () := by
  decide

/-- C1 amended: the legality check inspects no square other than the
destination. For rook, bishop and queen it returns exactly the conjunction of
the shared preconditions (destination in bounds, destination not a same-color
occupant) with the pure line/diagonal geometry, so a sliding move is never
rejected because of an occupied intervening square; and for every piece —
knights in particular — the verdict is unchanged between any two boards that
agree on the destination square alone. -/
theorem C1_amended_no_path_check :
    (∀ (b : Board) (fr fc tr tc : Int) (c : Color) (hm : Bool),
        is_valid_move b (fr, fc) (tr, tc) ⟨c, PieceType.rook, hm⟩ = true ↔
          is_valid_position tr tc = true ∧
          same_color_target (get_piece b tr tc) ⟨c, PieceType.rook, hm⟩ = false ∧
          (fr = tr ∨ fc = tc)) ∧
    (∀ (b : Board) (fr fc tr tc : Int) (c : Color) (hm : Bool),
        is_valid_move b (fr, fc) (tr, tc) ⟨c, PieceType.bishop, hm⟩ = true ↔
          is_valid_position tr tc = true ∧
          same_color_target (get_piece b tr tc) ⟨c, PieceType.bishop, hm⟩ = false ∧
          (fr - tr).natAbs = (fc - tc).natAbs) ∧
    (∀ (b : Board) (fr fc tr tc : Int) (c : Color) (hm : Bool),
        is_valid_move b (fr, fc) (tr, tc) ⟨c, PieceType.queen, hm⟩ = true ↔
          is_valid_position tr tc = true ∧
          same_color_target (get_piece b tr tc) ⟨c, PieceType.queen, hm⟩ = false ∧
          ((fr = tr ∨ fc = tc) ∨ (fr - tr).natAbs = (fc - tc).natAbs)) ∧
    (∀ (b b' : Board) (fp tp : Int × Int) (p : ChessPiece),
        get_piece b tp.1 tp.2 = get_piece b' tp.1 tp.2 →
        is_valid_move b fp tp p = is_valid_move b' fp tp p) := by
  refine ⟨?_, ?_, ?_, ?_⟩
  · intro b fr fc tr tc c hm
    cases hv : is_valid_position tr tc with
    | false => simp [is_valid_move, hv]
    | true =>
      cases hsc : same_color_target (get_piece b tr tc) ⟨c, PieceType.rook, hm⟩ with
      | true => simp [is_valid_move, hv, hsc]
      | false => simp [is_valid_move, hv, hsc]
  · intro b fr fc tr tc c hm
    cases hv : is_valid_position tr tc with
    | false => simp [is_valid_move, hv]
    | true =>
      cases hsc : same_color_target (get_piece b tr tc) ⟨c, PieceType.bishop, hm⟩ with
      | true => simp [is_valid_move, hv, hsc]
      | false => simp [is_valid_move, hv, hsc]
  · intro b fr fc tr tc c hm
    cases hv : is_valid_position tr tc with
    | false => simp [is_valid_move, hv]
    | true =>
      cases hsc : same_color_target (get_piece b tr tc) ⟨c, PieceType.queen, hm⟩ with
      | true => simp [is_valid_move, hv, hsc]
      | false => simp [is_valid_move, hv, hsc]
  · intro b b' fp tp p h
    simp only [is_valid_move, h]

/-- Witness for C1 amended: two boards that differ away from the destination
square (4,4) give the same verdict for a white rook move (7,0) to (4,4). -/
theorem C1_amended_witness :
    is_valid_move setup_board (7, 0) (4, 4) ⟨Color.white, PieceType.rook, false⟩ =
      is_valid_move two_pawn_board (7, 0) (4, 4) ⟨Color.white, PieceType.rook, false⟩ :=
  C1_amended_no_path_check.2.2.2 setup_board two_pawn_board (7, 0) (4, 4)
    ⟨Color.white, PieceType.rook, false⟩ (by decide)

/-- C2 counterexample: the unmoved black pawn on (1,0) of `two_pawn_board` may
double-step to (3,0) even though the intermediate square (2,0) — one step
forward, since the black pawn direction is 1 — is occupied: the legality check
returns true and make_move accepts the move, so the claimed
intermediate-square-empty condition is not required by the code. -/
theorem C2_counterexample :
    (2 : Int) = 1 + pawn_direction Color.black ∧
    (get_piece two_pawn_board 2 0).isSome = true ∧
    is_valid_move two_pawn_board (1, 0) (3, 0) ⟨Color.black, PieceType.pawn, false⟩ = true ∧
    (make_move ⟨two_pawn_board, Color.black⟩ (1, 0) (3, 0)).2 = Except.ok () := by
  decide

/-- C2 amended: a pawn double step (two squares forward on the same file) is
judged legal exactly when the destination is in bounds, the pawn's has_moved
flag is false and the destination square is empty — the intermediate square is
not consulted at all. -/
theorem C2_amended_double_step :
    ∀ (b : Board) (r cl : Int) (c : Color) (hm : Bool),
      is_valid_move b (r, cl) (r + 2 * pawn_direction c, cl) ⟨c, PieceType.pawn, hm⟩ = true ↔
        (is_valid_position (r + 2 * pawn_direction c) cl = true ∧ hm = false ∧
         get_piece b (r + 2 * pawn_direction c) cl = none) := by
  intro b r cl c hm
  have hd : pawn_direction c = 1 ∨ pawn_direction c = -1 := by
    cases c <;> simp [pawn_direction]
  have hne : ¬ (r + 2 * pawn_direction c = r + pawn_direction c) := by
    rcases hd with h | h <;> rw [h] <;> omega
  cases hv : is_valid_position (r + 2 * pawn_direction c) cl with
  | false => simp [is_valid_move, hv]
  | true =>
    cases hgp : get_piece b (r + 2 * pawn_direction c) cl with
    | none =>
      cases hm <;> simp [is_valid_move, hv, hgp, same_color_target, hne]
    | some t =>
      by_cases hsc : t.color = c
      · simp [is_valid_move, hv, hgp, same_color_target, hsc]
      · cases hm <;> simp [is_valid_move, hv, hgp, same_color_target, hsc, hne]

/-- A product of two naturals equals 2 exactly when the factors are 1 and 2 in
one of the two orders. -/
theorem nat_mul_eq_two_iff (a b : Nat) :
    a * b = 2 ↔ (a = 1 ∧ b = 2) ∨ (a = 2 ∧ b = 1) := by
  constructor
  · intro h
    have hb : 0 < b := by
      rcases Nat.eq_zero_or_pos b with h0 | h0
      · subst h0; simp at h
      · exact h0
    have ha : 0 < a := by
      rcases Nat.eq_zero_or_pos a with h0 | h0
      · subst h0; simp at h
      · exact h0
    have ha2 : a ≤ 2 := by
      have h2 := Nat.le_mul_of_pos_right a hb
      rw [h] at h2
      exact h2
    have hb2 : b ≤ 2 := by
      have h2 := Nat.le_mul_of_pos_left b ha
      rw [h] at h2
      exact h2
    interval_cases a <;> interval_cases b <;> omega
  · rintro (⟨rfl, rfl⟩ | ⟨rfl, rfl⟩) <;> rfl

/-- C6: For every board and every pawn, a one-step diagonal-forward move is
judged legal if and only if the destination square holds a piece of the
opposite color; in particular a diagonal move onto an empty square is always
illegal. -/
theorem C6_pawn_diagonal_capture_only (b : Board) (r cl : Int) (c : Color) (hm : Bool)
    (e : Int) (he : e = 1 ∨ e = -1) :
    (is_valid_move b (r, cl) (r + pawn_direction c, cl + e)
        ⟨c, PieceType.pawn, hm⟩ = true) ↔
      (∃ t, get_piece b (r + pawn_direction c) (cl + e) = some t ∧
        t.color = c.opposite) := by
  have hcc : ¬ (cl + e = cl) := by rcases he with h | h <;> rw [h] <;> omega
  have habs : (cl + e - cl).natAbs = 1 := by
    have hee : cl + e - cl = e := by omega
    rw [hee]
    rcases he with h | h <;> rw [h] <;> rfl
  cases hv : is_valid_position (r + pawn_direction c) (cl + e) with
  | false =>
    have hg : get_piece b (r + pawn_direction c) (cl + e) = none := by
      simp [get_piece, hv]
    simp [is_valid_move, hv, hg]
  | true =>
    cases hgp : get_piece b (r + pawn_direction c) (cl + e) with
    | none => simp [is_valid_move, hv, hgp, same_color_target, hcc, habs]
    | some t =>
      have hone : e.natAbs = 1 := by rcases he with h | h <;> rw [h] <;> rfl
      by_cases hsc : t.color = c
      · have hop : ¬ (t.color = c.opposite) := by
          rw [hsc]; cases c <;> decide
        simp [is_valid_move, hv, hgp, same_color_target, hsc, hop]
        cases c <;> decide
      · have hop : t.color = c.opposite := by
          cases c <;> cases ht : t.color <;> simp_all [Color.opposite]
        simp [is_valid_move, hv, hgp, same_color_target, hsc, hcc, habs, hop]
        exact ⟨by cases c <;> decide, hone⟩

/-- Witness for C6 at a concrete input: on `two_pawn_board` the black pawn
diagonal step from (1,1) onto the white pawn at (2,0) instantiates the
equivalence. -/
theorem C6_witness :
    (is_valid_move two_pawn_board (1, 1) (1 + pawn_direction Color.black, 1 + (-1))
        ⟨Color.black, PieceType.pawn, false⟩ = true) ↔
      (∃ t, get_piece two_pawn_board (1 + pawn_direction Color.black) (1 + (-1)) = some t ∧
        t.color = Color.black.opposite) :=
  C6_pawn_diagonal_capture_only two_pawn_board 1 1 Color.black false (-1) (Or.inr rfl)

/-- C7: For every knight and every pair of in-bounds squares passing the shared
preconditions, the knight legality rule accepts the move if and only if the
unordered pair of absolute coordinate differences is exactly the pair 1, 2 —
the code's test |Δrow|·|Δcol| = 2 is equivalent to the permutation-of-(1,2)
condition. -/
theorem C7_knight_rule (bd : Board) (fr fc tr tc : Int) (c : Color) (hm : Bool)
    (hto : is_valid_position tr tc = true)
    (hcap : same_color_target (get_piece bd tr tc) ⟨c, PieceType.knight, hm⟩ = false) :
    (is_valid_move bd (fr, fc) (tr, tc) ⟨c, PieceType.knight, hm⟩ = true) ↔
      (((fr - tr).natAbs = 1 ∧ (fc - tc).natAbs = 2) ∨
       ((fr - tr).natAbs = 2 ∧ (fc - tc).natAbs = 1)) := by
  simp [is_valid_move, hto, hcap, nat_mul_eq_two_iff]

/-- Witness for C7 at a concrete input: the knight jump (4,4) to (2,3) on
`two_pawn_board` instantiates the equivalence. -/
theorem C7_witness :
    (is_valid_move two_pawn_board (4, 4) (2, 3)
        ⟨Color.white, PieceType.knight, false⟩ = true) ↔
      ((((4 : Int) - 2).natAbs = 1 ∧ ((4 : Int) - 3).natAbs = 2) ∨
       (((4 : Int) - 2).natAbs = 2 ∧ ((4 : Int) - 3).natAbs = 1)) :=
  C7_knight_rule two_pawn_board 4 4 2 3 Color.white false (by decide) (by decide)

/-- C8: For every row and col with 0 ≤ row < 8 and 0 ≤ col < 8, converting
(row, col) to the two-character external designator and converting that string
back to board indices yields exactly (row, col); and the decoding applied to a
file letter between a and h and a rank digit between 1 and 8 computes
col = letter − 97 and row = 8 − digit (codepoint arithmetic, 48 being the
digit-zero codepoint). -/
theorem C8_coordinate_roundtrip :
    (∀ (row col : Int), 0 ≤ row → row < 8 → 0 ≤ col → col < 8 →
        convert_position (convert_position_to_uci row col) = some (row, col)) ∧
    (∀ l ∈ ['a', 'b', 'c', 'd', 'e', 'f', 'g', 'h'],
      ∀ d ∈ ['1', '2', '3', '4', '5', '6', '7', '8'],
        convert_position (String.mk [l, d]) =
          some ((8 : Int) - ((d.toNat : Int) - 48), (l.toNat : Int) - 97)) := by
  constructor
  · intro row col h1 h2 h3 h4
    interval_cases row <;> interval_cases col <;> decide
  · decide

/-- Witness for C8 at a concrete input: square (6,4) encodes to e2 and decodes
back to (6,4). -/
theorem C8_witness :
    convert_position (convert_position_to_uci 6 4) = some (6, 4) :=
  C8_coordinate_roundtrip.1 6 4 (by decide) (by decide) (by decide) (by decide)

/-- C9: Exactly four difficulty tiers are recognized and map to (skill level,
search depth) as beginner (3, 5), intermediate (10, 10), professional
(15, 15) and top_star (20, 20); configuring with any other tier name produces
the configuration error with an empty list of commands, i.e. before any
option-setting command is sent to the engine process. -/
theorem C9_difficulty_tiers :
    DIFFICULTY_SETTINGS.lookup "beginner" = some (3, 5) ∧
    DIFFICULTY_SETTINGS.lookup "intermediate" = some (10, 10) ∧
    DIFFICULTY_SETTINGS.lookup "professional" = some (15, 15) ∧
    DIFFICULTY_SETTINGS.lookup "top_star" = some (20, 20) ∧
    (∀ d : String,
        ¬ (d = "beginner" ∨ d = "intermediate" ∨ d = "professional" ∨ d = "top_star") →
        configure_difficulty d = ([], Except.error ConfigError.invalidDifficulty)) := by
  refine ⟨by decide, by decide, by decide, by decide, ?_⟩
  intro d hd
  have h1 : ¬ (d = "beginner") := fun h => hd (Or.inl h)
  have h2 : ¬ (d = "intermediate") := fun h => hd (Or.inr (Or.inl h))
  have h3 : ¬ (d = "professional") := fun h => hd (Or.inr (Or.inr (Or.inl h)))
  have h4 : ¬ (d = "top_star") := fun h => hd (Or.inr (Or.inr (Or.inr h)))
  have b1 : (d == "beginner") = false := by simp [h1]
  have b2 : (d == "intermediate") = false := by simp [h2]
  have b3 : (d == "professional") = false := by simp [h3]
  have b4 : (d == "top_star") = false := by simp [h4]
  simp [configure_difficulty, DIFFICULTY_SETTINGS, List.lookup, b1, b2, b3, b4]

/-- Witness for C9 at a concrete input: the tier expert is rejected with no
commands sent. -/
theorem C9_witness :
    configure_difficulty "expert" = ([], Except.error ConfigError.invalidDifficulty) :=
  C9_difficulty_tiers.2.2.2.2 "expert" (by decide)

/-- Setting an index beyond the end of a list is a no-op. -/
theorem list_set_oob {α : Type} (l : List α) (i : Nat) (v : α) (h : l.length ≤ i) :
    l.set i v = l := by
  induction l generalizing i with
  | nil => rfl
  | cons x xs ih =>
    cases i with
    | zero => simp at h
    | succ n => simp only [List.set]; rw [ih n (by simpa using h)]

/-- Reading back an in-range index just written returns the written value. -/
theorem list_getD_set_self {α : Type} (l : List α) (i : Nat) (v d : α)
    (h : i < l.length) : (l.set i v).getD i d = v := by
  induction l generalizing i with
  | nil => simp at h
  | cons x xs ih =>
    cases i with
    | zero => rfl
    | succ n => simpa using ih n (by simpa using h)

/-- Writing one index leaves every other index unchanged. -/
theorem list_getD_set_ne {α : Type} (l : List α) (i j : Nat) (v d : α)
    (h : i ≠ j) : (l.set i v).getD j d = l.getD j d := by
  induction l generalizing i j with
  | nil => rfl
  | cons x xs ih =>
    cases i with
    | zero =>
      cases j with
      | zero => exact absurd rfl h
      | succ m => rfl
    | succ n =>
      cases j with
      | zero => rfl
      | succ m => simpa using ih n m (fun hh => h (by rw [hh]))

/-- Reading an index beyond the end of a list returns the default. -/
theorem list_getD_oob {α : Type} (l : List α) (i : Nat) (d : α)
    (h : l.length ≤ i) : l.getD i d = d := by
  induction l generalizing i with
  | nil => rfl
  | cons x xs ih =>
    cases i with
    | zero => simp at h
    | succ n => simpa using ih n (by simpa using h)

/-- An in-range `getD` is a member of the list. -/
theorem list_getD_mem {α : Type} (l : List α) (i : Nat) (d : α)
    (h : i < l.length) : l.getD i d ∈ l := by
  induction l generalizing i with
  | nil => simp at h
  | cons x xs ih =>
    cases i with
    | zero => exact List.mem_cons_self x xs
    | succ n => exact List.mem_cons_of_mem x (ih n (by simpa using h))

/-- How an in-range overwrite changes a predicate count, in addition form. -/
theorem list_countP_set {α : Type} (l : List α) (p : α → Bool) (i : Nat) (v d : α)
    (h : i < l.length) :
    (l.set i v).countP p + (if p (l.getD i d) then 1 else 0)
      = l.countP p + (if p v then 1 else 0) := by
  induction l generalizing i with
  | nil => simp at h
  | cons x xs ih =>
    cases i with
    | zero =>
      cases hpx : p x <;> cases hpv : p v <;>
        simp [List.countP_cons, hpx, hpv]
    | succ n =>
      have hih := ih n (by simpa using h)
      simp [List.getD] at hih
      cases hpx : p x <;> simp [List.countP_cons, hpx] <;> omega

/-- How an in-range overwrite changes the sum of a mapped list, in addition
form. -/
theorem list_sum_map_set {α : Type} (f : α → Nat) (l : List α) (i : Nat) (v d : α)
    (h : i < l.length) :
    ((l.set i v).map f).sum + f (l.getD i d) = (l.map f).sum + f v := by
  induction l generalizing i with
  | nil => simp at h
  | cons x xs ih =>
    cases i with
    | zero => simp; omega
    | succ n =>
      have hih := ih n (by simpa using h)
      simp [List.getD] at hih
      simp
      omega

/-- Unpacking the bounds check. -/
theorem valid_position_bounds (r c : Int) (h : is_valid_position r c = true) :
    0 ≤ r ∧ r < 8 ∧ 0 ≤ c ∧ c < 8 := by
  simpa [is_valid_position] using h

/-- Writing a square preserves the number of rows. -/
theorem set_square_length (b : Board) (r c : Int) (v : Option ChessPiece) :
    (set_square b r c v).length = b.length := by
  simp [set_square]

/-- Writing a square preserves the length of every row. -/
theorem set_square_row_length (b : Board) (r c : Int) (v : Option ChessPiece) (i : Nat) :
    ((set_square b r c v).getD i []).length = (b.getD i []).length := by
  unfold set_square
  by_cases h : r.toNat = i
  · subst h
    by_cases hb : r.toNat < b.length
    · rw [list_getD_set_self _ _ _ _ hb]; simp
    · rw [list_set_oob _ _ _ (by omega)]
  · rw [list_getD_set_ne _ _ _ _ _ h]

/-- Reading back the square just written returns the written occupant. -/
theorem get_piece_set_square_self (b : Board) (r c : Int) (v : Option ChessPiece)
    (hv : is_valid_position r c = true)
    (hr : r.toNat < b.length) (hc : c.toNat < (b.getD r.toNat []).length) :
    get_piece (set_square b r c v) r c = v := by
  unfold get_piece set_square
  rw [if_pos hv, list_getD_set_self _ _ _ _ hr, list_getD_set_self _ _ _ _ hc]

/-- Writing a square on one row leaves squares of other rows unchanged. -/
theorem get_piece_set_square_ne_row (b : Board) (r c r' c' : Int) (v : Option ChessPiece)
    (hrow : r.toNat ≠ r'.toNat) :
    get_piece (set_square b r c v) r' c' = get_piece b r' c' := by
  unfold get_piece set_square
  cases hv : is_valid_position r' c' with
  | true => rw [if_pos rfl, if_pos rfl, list_getD_set_ne _ _ _ _ _ hrow]
  | false => rw [if_neg Bool.false_ne_true, if_neg Bool.false_ne_true]

/-- Writing a square leaves other squares of the same row unchanged. -/
theorem get_piece_set_square_ne_col (b : Board) (r c r' c' : Int) (v : Option ChessPiece)
    (hrow : r.toNat = r'.toNat) (hcol : c.toNat ≠ c'.toNat) :
    get_piece (set_square b r c v) r' c' = get_piece b r' c' := by
  unfold get_piece set_square
  rw [← hrow]
  cases hv : is_valid_position r' c' with
  | false => rw [if_neg Bool.false_ne_true, if_neg Bool.false_ne_true]
  | true =>
    rw [if_pos rfl, if_pos rfl]
    by_cases hb : r.toNat < b.length
    · rw [list_getD_set_self _ _ _ _ hb, list_getD_set_ne _ _ _ _ _ hcol]
    · rw [list_set_oob _ _ _ (by omega)]

/-- Writing a square leaves every distinct square unchanged. -/
theorem get_piece_set_square_ne (b : Board) (r c r' c' : Int) (v : Option ChessPiece)
    (hne : r.toNat ≠ r'.toNat ∨ c.toNat ≠ c'.toNat) :
    get_piece (set_square b r c v) r' c' = get_piece b r' c' := by
  rcases hne with h | h
  · exact get_piece_set_square_ne_row b r c r' c' v h
  · by_cases hr : r.toNat = r'.toNat
    · exact get_piece_set_square_ne_col b r c r' c' v hr h
    · exact get_piece_set_square_ne_row b r c r' c' v hr

/-- How an in-range square write changes the total occupancy count, in
addition form. -/
theorem piece_count_set_square (b : Board) (r c : Int) (v : Option ChessPiece)
    (hr : r.toNat < b.length) (hc : c.toNat < (b.getD r.toNat []).length) :
    piece_count (set_square b r c v) +
        (if ((b.getD r.toNat []).getD c.toNat none).isSome then 1 else 0)
      = piece_count b + (if v.isSome then 1 else 0) := by
  unfold piece_count set_square
  have h1 := list_sum_map_set (fun row => row.countP Option.isSome) b r.toNat
      ((b.getD r.toNat []).set c.toNat v) [] hr
  have h2 := list_countP_set (b.getD r.toNat []) Option.isSome c.toNat v none hc
  simp only at h1
  omega

/-- C5: After every accepted make_move, the source square is empty, the
destination square holds exactly the piece that was at the source with its
has_moved flag set true, the side-to-move equals the opposite of its pre-move
value, and the total piece count decreases by exactly one if the destination
was occupied before the move (a capture) and is otherwise unchanged (stated in
addition form to avoid natural-number truncation). -/
theorem C5_accepted_move_postconditions (s : GameState) (fp tp : Int × Int)
    (piece : ChessPiece) (s' : GameState)
    (hwf : board_wf s.board)
    (hp : get_piece s.board fp.1 fp.2 = some piece)
    (h : make_move s fp tp = (s', Except.ok ())) :
    get_piece s'.board fp.1 fp.2 = none ∧
    get_piece s'.board tp.1 tp.2 = some { piece with has_moved := true } ∧
    s'.current_turn = s.current_turn.opposite ∧
    piece_count s'.board + (if (get_piece s.board tp.1 tp.2).isSome then 1 else 0)
      = piece_count s.board := by
  by_cases hv : is_valid_position fp.1 fp.2 ∧ is_valid_position tp.1 tp.2
  case neg =>
    rw [make_move_invalid s fp tp hv] at h
    exact absurd (congrArg Prod.snd h) (by simp)
  case pos =>
  by_cases hc : piece.color = s.current_turn
  case neg =>
    rw [make_move_wrong_turn s fp tp piece hv hp hc] at h
    exact absurd (congrArg Prod.snd h) (by simp)
  case pos =>
  cases hiv : is_valid_move s.board fp tp piece with
  | false =>
    rw [make_move_illegal s fp tp piece hv hp hc hiv] at h
    exact absurd (congrArg Prod.snd h) (by simp)
  | true =>
  rw [make_move_ok s fp tp piece hv hp hc hiv] at h
  injection h with h1 h2
  have hboard : s'.board = set_square
      (set_square s.board tp.1 tp.2 (some { piece with has_moved := true }))
      fp.1 fp.2 none := by rw [← h1]
  have hturn : s'.current_turn = s.current_turn.opposite := by rw [← h1]
  obtain ⟨hv1, hv2⟩ := hv
  obtain ⟨hf0, hf8, hf0c, hf8c⟩ := valid_position_bounds _ _ hv1
  obtain ⟨ht0, ht8, ht0c, ht8c⟩ := valid_position_bounds _ _ hv2
  have hlen : s.board.length = 8 := hwf.1
  have hrowlen : ∀ i : Nat, i < 8 → (s.board.getD i []).length = 8 := by
    intro i hi
    exact hwf.2 _ (list_getD_mem _ _ _ (by omega))
  have hne : fp.1.toNat ≠ tp.1.toNat ∨ fp.2.toNat ≠ tp.2.toNat := by
    by_contra hcon
    push_neg at hcon
    have hfp : fp = tp := by
      have h1 : fp.1 = tp.1 := by omega
      have h2 : fp.2 = tp.2 := by omega
      exact Prod.ext h1 h2
    rw [hfp] at hp hiv
    simp [is_valid_move_self s.board tp piece hp] at hiv
  have hne' : tp.1.toNat ≠ fp.1.toNat ∨ tp.2.toNat ≠ fp.2.toNat := by
    rcases hne with hx | hx
    · exact Or.inl (Ne.symm hx)
    · exact Or.inr (Ne.symm hx)
  have hb1len : (set_square s.board tp.1 tp.2
      (some { piece with has_moved := true })).length = 8 := by
    rw [set_square_length, hlen]
  have hb1row : ∀ i : Nat, i < 8 →
      ((set_square s.board tp.1 tp.2
        (some { piece with has_moved := true })).getD i []).length = 8 := by
    intro i hi
    rw [set_square_row_length]
    exact hrowlen i hi
  have hsrc : get_piece s'.board fp.1 fp.2 = none := by
    rw [hboard]
    exact get_piece_set_square_self _ fp.1 fp.2 none hv1 (by omega)
      (by rw [hb1row fp.1.toNat (by omega)]; omega)
  have hdst : get_piece s'.board tp.1 tp.2 = some { piece with has_moved := true } := by
    rw [hboard, get_piece_set_square_ne _ fp.1 fp.2 tp.1 tp.2 none hne]
    exact get_piece_set_square_self _ tp.1 tp.2 _ hv2 (by omega)
      (by rw [hrowlen tp.1.toNat (by omega)]; omega)
  refine ⟨hsrc, hdst, hturn, ?_⟩
  have hcount1 := piece_count_set_square
    (set_square s.board tp.1 tp.2 (some { piece with has_moved := true }))
    fp.1 fp.2 none (by omega) (by rw [hb1row fp.1.toNat (by omega)]; omega)
  have hcount2 := piece_count_set_square s.board tp.1 tp.2
    (some { piece with has_moved := true }) (by omega)
    (by rw [hrowlen tp.1.toNat (by omega)]; omega)
  have hgp1 : get_piece (set_square s.board tp.1 tp.2
      (some { piece with has_moved := true })) fp.1 fp.2 = some piece := by
    rw [get_piece_set_square_ne s.board tp.1 tp.2 fp.1 fp.2 _ hne']
    exact hp
  have hold1 : ((set_square s.board tp.1 tp.2
      (some { piece with has_moved := true })).getD fp.1.toNat []).getD fp.2.toNat none
      = some piece := by
    unfold get_piece at hgp1
    rw [if_pos hv1] at hgp1
    exact hgp1
  have hold2 : (s.board.getD tp.1.toNat []).getD tp.2.toNat none
      = get_piece s.board tp.1 tp.2 := by
    unfold get_piece
    rw [if_pos hv2]
  rw [hold1] at hcount1
  rw [hold2] at hcount2
  rw [hboard]
  simp at hcount1 hcount2
  omega

/-- Witness for C5 at a concrete input: the accepted opening move (6,4) to
(4,4) — pawn e2 to e4 — empties the source, puts the moved pawn on the
destination, flips the turn and preserves the piece count. -/
theorem C5_witness :
    get_piece (make_move ⟨setup_board, Color.white⟩ (6, 4) (4, 4)).1.board 6 4 = none ∧
    get_piece (make_move ⟨setup_board, Color.white⟩ (6, 4) (4, 4)).1.board 4 4 =
      some ⟨Color.white, PieceType.pawn, true⟩ ∧
    (make_move ⟨setup_board, Color.white⟩ (6, 4) (4, 4)).1.current_turn =
      Color.white.opposite ∧
    piece_count (make_move ⟨setup_board, Color.white⟩ (6, 4) (4, 4)).1.board +
        (if (get_piece setup_board 4 4).isSome then 1 else 0)
      = piece_count setup_board :=
  C5_accepted_move_postconditions ⟨setup_board, Color.white⟩ (6, 4) (4, 4)
    ⟨Color.white, PieceType.pawn, false⟩
    (make_move ⟨setup_board, Color.white⟩ (6, 4) (4, 4)).1
    (by decide) (by decide) (by rfl)

